import Mathlib

/-!
Verification development for `brew-compat` (`check.py`).

The program reads package names from a Brewfile, queries the Homebrew
metadata API once per package, and classifies each package against a
target macOS version.  The embedding below translates the module-level
tables and the functions `get_formulae`, `get_supported_versions`,
`get_type` and `get_status` of `check.py`.

Modelling decisions:
* Python exceptions relevant to the program (`KeyError`, `IndexError`,
  `TypeError`, `AttributeError`) are made explicit in an error type, and
  any function that can raise returns `Except PyErr`.
* A parsed JSON body is a `Json` value.  JSON numbers are modelled as
  integers; floating-point literals are outside the model.
* The network is a parameter: a map from a package name to the pair of
  an HTTP status code and the parsed response body.
* `sys.exit(1)` in `get_formulae` is modelled as `Except.error 1`, the
  error value being the process exit code.
* A manifest file is given as its list of lines, as produced by
  `readlines()`; an interior newline cannot occur in such a line.
-/

namespace BrewCompat

/-- The `macos_versions` list of `check.py`: the choices offered for the
CLI flag `--macos-version`. -/
def macos_versions : List String :=
  ["arm64_big_sur", "big_sur", "catalina", "mojave", "high_sierra",
   "sierra", "el_capitan"]

/-- The `support_matrix` dictionary of `check.py`, as an association
list in source order: a minimum-version constraint string mapped to the
list of macOS version identifiers the source says satisfy it. -/
def support_matrix : List (String × List String) :=
  [(">=11.0", ["arm64big_sur", "big_sur"]),
   (">=10.16", ["arm64big_sur", "big_sur"]),
   (">=10.15", ["arm64big_sur", "big_sur", "catalina"]),
   (">=10.14", ["arm64big_sur", "big_sur", "catalina", "mojave"]),
   (">=10.13", ["arm64big_sur", "big_sur", "catalina", "mojave", "high_sierra"]),
   (">=10.12", ["arm64big_sur", "big_sur", "catalina", "mojave", "high_sierra", "sierra"]),
   (">=10.11", ["arm64big_sur", "big_sur", "catalina", "mojave", "high_sierra", "el_capitan"])]

/-- The `metadata` dictionary of `check.py`: the supported formula types
and their API base URLs. -/
def metadata : List (String × String) :=
  [("brew", "https://formulae.brew.sh/api/formula"),
   ("cask", "https://formulae.brew.sh/api/cask")]

/-- A parsed JSON value, the result of `response.json()`.  Numbers are
modelled as integers. -/
inductive Json where
  | str (s : String)
  | num (n : Int)
  | bool (b : Bool)
  | null
  | arr (elems : List Json)
  | obj (fields : List (String × Json))

/-- Equality of `Except` results is decidable when it is for both
components; used to evaluate the embedded functions on concrete
inputs. -/
instance {ε α : Type} [DecidableEq ε] [DecidableEq α] :
    DecidableEq (Except ε α) := fun x y => by
  cases x <;> cases y
  case error.error a b =>
    exact if h : a = b then isTrue (by rw [h])
      else isFalse (by intro hc; injection hc; contradiction)
  case error.ok a b => exact isFalse (by intro hc; injection hc)
  case ok.error a b => exact isFalse (by intro hc; injection hc)
  case ok.ok a b =>
    exact if h : a = b then isTrue (by rw [h])
      else isFalse (by intro hc; injection hc; contradiction)

/-- The Python exceptions the embedded code can raise. -/
inductive PyErr where
  | keyError
  | indexError
  | typeError
  | attributeError
deriving DecidableEq

/-- Python subscripting `value[key]` with a string key: on a dict it is
a lookup raising `KeyError` when the key is absent; on any non-dict
value it raises `TypeError`. -/
def Json.getStr : Json → String → Except PyErr Json
  | .obj fields, k =>
    match fields.lookup k with
    | some v => Except.ok v
    | none => Except.error PyErr.keyError
  | _, _ => Except.error PyErr.typeError

/-- Python subscripting `value[i]` with an integer index: on a list it
raises `IndexError` when out of range; on a string it yields the
one-character string; on a dict it raises `KeyError` (a JSON-parsed dict
has only string keys, so an integer key is never present); on any other
value it raises `TypeError`. -/
def Json.getIdx : Json → Nat → Except PyErr Json
  | .arr xs, i =>
    match xs.get? i with
    | some v => Except.ok v
    | none => Except.error PyErr.indexError
  | .str s, i =>
    match s.data.get? i with
    | some c => Except.ok (Json.str (String.mk [c]))
    | none => Except.error PyErr.indexError
  | .obj _, _ => Except.error PyErr.keyError
  | _, _ => Except.error PyErr.typeError

/-- Python `value.keys()` as used on the bottle-file dict: the key list
of a dict in insertion order; any non-dict value raises
`AttributeError`. -/
def Json.keys : Json → Except PyErr (List String)
  | .obj fields => Except.ok (fields.map Prod.fst)
  | _ => Except.error PyErr.attributeError

/-- Python `str()` of a JSON value, as applied by
`">={}".format(data["depends_on"]["macos"][">="][0])` in `check.py`.
For strings and integers this matches Python exactly; a composite or
constant value is rendered by Python as bracketed or capitalised
`repr`-style text, modelled here by a placeholder that keeps the one
property the program depends on: the rendering of such a value never
coincides with a `support_matrix` key. -/
def pyStr : Json → String
  | .str s => s
  | .num n => toString n
  | .bool b => bif b then "True" else "False"
  | .null => "None"
  | .arr _ => "[...]"
  | .obj _ => "\x7b...\x7d"

/-- `get_supported_versions(data, formula_type)` of `check.py`.
For `"brew"`, the keys of `data["bottle"]["stable"]["files"]`; for
`"cask"`, the `support_matrix` entry for
`">={}".format(data["depends_on"]["macos"][">="][0])`, where a missing
`support_matrix` key raises `KeyError`; for any other type the initial
empty list is returned. -/
def get_supported_versions (data : Json) (formula_type : String) :
    Except PyErr (List String) :=
  if formula_type = "brew" then do
    let bottle ← data.getStr "bottle"
    let stable ← bottle.getStr "stable"
    let files ← stable.getStr "files"
    files.keys
  else if formula_type = "cask" then do
    let dep ← data.getStr "depends_on"
    let mac ← dep.getStr "macos"
    let ge ← mac.getStr ">="
    let v ← ge.getIdx 0
    match support_matrix.lookup (">=" ++ pyStr v) with
    | some versions => Except.ok versions
    | none => Except.error PyErr.keyError
  else
    Except.ok []

/-- `get_type(formula_type)` of `check.py`, written with the same
sequence of overwriting assignments as the source. -/
def get_type (formula_type : String) : String :=
  let kind := "Unknown"
  let kind := if formula_type = "brew" then "Bottle" else kind
  let kind := if formula_type = "cask" then "Application" else kind
  kind

/-- `SupportStatus` of `check.py` (a named tuple). -/
structure SupportStatus where
  kind : String
  formula_name : String
  status : String
deriving DecidableEq

/-- The body of the `for` loop of `get_status` for one formula name.
The response for a name is supplied by `api`.  Only `KeyError` from
`get_supported_versions` is caught (the `except KeyError` clause);
every other exception propagates. -/
def get_status_one (api : String → Nat × Json)
    (formula_type macos_version formula_name : String) :
    Except PyErr SupportStatus :=
  let kind := get_type formula_type
  let resp := api formula_name
  if resp.1 = 200 then
    match get_supported_versions resp.2 formula_type with
    | Except.ok supported_versions =>
        if macos_version ∈ supported_versions then
          Except.ok ⟨kind, formula_name, "Supported"⟩
        else
          Except.ok ⟨kind, formula_name, "Unsupported"⟩
    | Except.error PyErr.keyError =>
        Except.ok ⟨kind, formula_name, "No info"⟩
    | Except.error e => Except.error e
  else
    Except.ok ⟨kind, formula_name, "Unknown"⟩

/-- `get_status(formulae, formula_type, macos_version)` of `check.py`:
the loop appending one `SupportStatus` per formula name, in order.  An
uncaught exception in an iteration aborts the whole call. -/
def get_status (api : String → Nat × Json) (formulae : List String)
    (formula_type macos_version : String) :
    Except PyErr (List SupportStatus) :=
  match formulae with
  | [] => Except.ok []
  | name :: rest => do
    let s ← get_status_one api formula_type macos_version name
    let ss ← get_status api rest formula_type macos_version
    Except.ok (s :: ss)

/-- Python `line.startswith(formula_type)` on the characters of the
line. -/
def py_startswith : List Char → List Char → Bool
  | _, [] => true
  | [], _ :: _ => false
  | c :: cs, p :: ps => c == p && py_startswith cs ps

/-- The lazy continuation of a match of the pattern `\"(.+?)\"` after
its opening quote has been consumed: one or more characters other than
a newline, stopping at the first subsequent `"`.  Returns the matched
text that follows the opening quote (the content and the closing
quote). -/
def matchBody : List Char → Option (List Char)
  | [] => none
  | c :: rest =>
    if c = '\n' then none
    else if rest.head? = some '"' then some [c, '"']
    else
      match matchBody rest with
      | some m => some (c :: m)
      | none => none

/-- `re.search(r'\"(.+?)\"', s)`: the leftmost match of the pattern,
with the lazy quantifier taking the shortest body, returned as the full
matched text (`match.group()`), or `none` when the line has no match. -/
def reSearchQuoted : List Char → Option (List Char)
  | [] => none
  | c :: rest =>
    if c = '"' then
      match matchBody rest with
      | some m => some ('"' :: m)
      | none => reSearchQuoted rest
    else reSearchQuoted rest

/-- `match.group().replace('"', "")`: every double-quote character is
removed from the matched text. -/
def stripQuotes (m : List Char) : List Char :=
  m.filter (fun c => c ≠ '"')

/-- `get_formulae(brewfile, formula_type)` of `check.py`, the manifest
file given as its list of lines.  An unsupported formula type exits the
process with code 1 before the file is read; otherwise each line that
starts with the formula type contributes the first regex match with its
quote characters removed, and a line without a match contributes
nothing. -/
def get_formulae (lines : List String) (formula_type : String) :
    Except Nat (List String) :=
  if (metadata.map Prod.fst).contains formula_type then
    Except.ok (lines.filterMap fun line =>
      if py_startswith line.data formula_type.data then
        (reSearchQuoted line.data).map fun m => String.mk (stripQuotes m)
      else none)
  else
    Except.error 1

/-- Modelled from the spec: the content of the first double-quoted
token of a line, read as the characters strictly after the first `"`
and strictly before the next `"`; `none` when the line has no such
token.  `upToQuote` returns the characters before the first `"` of its
argument, or `none` when there is none. -/
def upToQuote : List Char → Option (List Char)
  | [] => none
  | c :: rest =>
    if c = '"' then some []
    else (upToQuote rest).map (fun cs => c :: cs)

/-- Modelled from the spec: see `upToQuote`. -/
def firstQuotedContent : List Char → Option (List Char)
  | [] => none
  | c :: rest =>
    if c = '"' then upToQuote rest
    else firstQuotedContent rest

/-- A line is benign for name extraction when its first double-quoted
token, if any, has nonempty content with no interior newline.  Every
line a Brewfile produces in practice is benign; the exceptions are the
lines on which the lazy regex diverges from the plain first-token
reading. -/
def goodLine (line : String) : Bool :=
  match firstQuotedContent line.data with
  | none => true
  | some content => !content.isEmpty && !content.contains '\n'

/-- Modelled from the spec: the status record the Compatibility
Evaluator is specified to produce for one package from its API
response, by cases: HTTP 200 and the target a member of the resolved
set is Supported; 200 and not a member is Unsupported; 200 with failed
resolution is No info; any non-200 response is Unknown. -/
def spec_record (resp : Nat × Json) (formula_type macos_version name : String) :
    SupportStatus :=
  if resp.1 = 200 then
    match get_supported_versions resp.2 formula_type with
    | Except.ok versions =>
        if macos_version ∈ versions then
          ⟨get_type formula_type, name, "Supported"⟩
        else
          ⟨get_type formula_type, name, "Unsupported"⟩
    | Except.error _ => ⟨get_type formula_type, name, "No info"⟩
  else ⟨get_type formula_type, name, "Unknown"⟩

/-- A response resolves cleanly when a 200 body either resolves, or
fails resolution with the one exception the source catches
(`KeyError`).  Any other exception escapes the `except KeyError`
clause of `get_status`. -/
def resolvesCleanly (resp : Nat × Json) (formula_type : String) : Bool :=
  if resp.1 = 200 then
    match get_supported_versions resp.2 formula_type with
    | Except.ok _ => true
    | Except.error PyErr.keyError => true
    | Except.error _ => false
  else true

/-- A cask response body whose `">="` constraint list is empty. -/
def emptyConstraintBody : Json :=
  Json.obj [("depends_on", Json.obj [("macos", Json.obj [(">=", Json.arr [])])])]

/-- A brew response body whose `bottle` field is a string rather than
an object. -/
def stringBottleBody : Json :=
  Json.obj [("bottle", Json.str "oops")]

/-- A brew response body with stable bottle files for two macOS
versions. -/
def brewFilesBody : Json :=
  Json.obj [("bottle", Json.obj [("stable", Json.obj [("files",
    Json.obj [("big_sur", Json.str "url1"), ("catalina", Json.str "url2")])])])]

/-- A cask response body declaring the constraint `>=10.15`. -/
def caskMin1015Body : Json :=
  Json.obj [("depends_on", Json.obj [("macos", Json.obj [(">=",
    Json.arr [Json.str "10.15"])])])]

/-- A cask response body declaring the constraint `>=10.14`. -/
def caskMin1014Body : Json :=
  Json.obj [("depends_on", Json.obj [("macos", Json.obj [(">=",
    Json.arr [Json.str "10.14"])])])]

/-- A cask response body declaring `>=10.9`, a constraint absent from
`support_matrix`. -/
def caskMin109Body : Json :=
  Json.obj [("depends_on", Json.obj [("macos", Json.obj [(">=",
    Json.arr [Json.str "10.9"])])])]

/-- An API that answers every query with HTTP 200 and the
empty-constraint cask body. -/
def apiEmptyConstraint : String → Nat × Json := fun _ => (200, emptyConstraintBody)

/-- An API that answers every query with HTTP 200 and the
string-bottle brew body. -/
def apiStringBottle : String → Nat × Json := fun _ => (200, stringBottleBody)

/-- An API that answers every query with HTTP 200 and the `>=10.14`
cask body. -/
def apiCask1014 : String → Nat × Json := fun _ => (200, caskMin1014Body)

/-- An API that answers every query with HTTP 200 and the `>=10.9`
cask body. -/
def apiCask109 : String → Nat × Json := fun _ => (200, caskMin109Body)

/-- An API with three behaviours: a found brew formula with bottle
files, a missing formula answered 404, and a found formula whose body
lacks the bottle fields. -/
def apiMixed : String → Nat × Json := fun name =>
  if name = "wget" then (200, brewFilesBody)
  else if name = "nope" then (404, Json.null)
  else (200, Json.obj [])

/-- A small manifest: two brew lines (one of them without any quoted
token), a tap line and a cask line. -/
def sampleLines : List String :=
  ["brew \"wget\"", "brew util", "tap \"user/repo\"", "cask \"firefox\""]

/-! Helper lemmas relating the lazy regex search of the source to the
first-quoted-token reading of the spec. -/

/-- A successful `upToQuote` decomposes its argument: the content is
quote-free and is followed by a quote. -/
theorem upToQuote_eq_some {l content : List Char}
    (h : upToQuote l = some content) :
    '"' ∉ content ∧ ∃ suffix, l = content ++ '"' :: suffix := by
  induction l generalizing content with
  | nil => simp [upToQuote] at h
  | cons c rest ih =>
    simp only [upToQuote] at h
    by_cases hc : c = '"'
    · rw [if_pos hc] at h
      obtain rfl : ([] : List Char) = content := Option.some.inj h
      exact ⟨by simp, rest, by simp [hc]⟩
    · rw [if_neg hc] at h
      obtain ⟨cs, hcs, hval⟩ := Option.map_eq_some'.mp h
      subst hval
      obtain ⟨hq, suffix, hrest⟩ := ih hcs
      refine ⟨?_, suffix, by simp [hrest]⟩
      intro hmem
      rcases List.mem_cons.mp hmem with h' | h'
      · exact hc h'.symm
      · exact hq h'

/-- A failing `upToQuote` means the argument has no quote at all. -/
theorem upToQuote_eq_none {l : List Char} (h : upToQuote l = none) :
    '"' ∉ l := by
  induction l with
  | nil => simp
  | cons c rest ih =>
    simp only [upToQuote] at h
    by_cases hc : c = '"'
    · rw [if_pos hc] at h; exact absurd h (by simp)
    · rw [if_neg hc] at h
      have hrest : upToQuote rest = none := by
        cases hu : upToQuote rest with
        | none => rfl
        | some cs => rw [hu] at h; simp at h
      intro hmem
      rcases List.mem_cons.mp hmem with h' | h'
      · exact hc h'.symm
      · exact ih hrest h'

/-- The extracted content of a first quoted token is quote-free. -/
theorem firstQuotedContent_no_quote {s content : List Char}
    (h : firstQuotedContent s = some content) : '"' ∉ content := by
  induction s with
  | nil => simp [firstQuotedContent] at h
  | cons c rest ih =>
    simp only [firstQuotedContent] at h
    by_cases hc : c = '"'
    · rw [if_pos hc] at h; exact (upToQuote_eq_some h).1
    · rw [if_neg hc] at h; exact ih h

/-- One unfolding step of the lazy body match when the head continues
the body. -/
theorem matchBody_cons_of (c : Char) (rest : List Char) (h1 : c ≠ '\n')
    (h2 : ¬ rest.head? = some '"') :
    matchBody (c :: rest) =
      match matchBody rest with
      | some m => some (c :: m)
      | none => none := by
  simp only [matchBody]
  rw [if_neg h1, if_neg h2]

/-- On a nonempty quote-free newline-free content followed by a quote,
the lazy body match succeeds and returns exactly the content and the
closing quote. -/
theorem matchBody_append {content suffix : List Char}
    (hne : content ≠ []) (hq : '"' ∉ content) (hn : '\n' ∉ content) :
    matchBody (content ++ '"' :: suffix) = some (content ++ ['"']) := by
  induction content with
  | nil => exact absurd rfl hne
  | cons c cs ih =>
    have hcn : c ≠ '\n' := fun he => hn (by simp [he])
    cases cs with
    | nil =>
      simp only [List.cons_append, List.nil_append, matchBody]
      rw [if_neg hcn]
      simp
    | cons c2 cs2 =>
      have hc2q : c2 ≠ '"' := fun he => hq (by simp [he])
      have hih := ih (by simp) (fun hm => hq (List.mem_cons_of_mem _ hm))
        (fun hm => hn (List.mem_cons_of_mem _ hm))
      rw [show (c :: c2 :: cs2) ++ '"' :: suffix =
        c :: (c2 :: cs2 ++ '"' :: suffix) from rfl]
      rw [matchBody_cons_of c _ hcn (by simp [hc2q]), hih]
      rfl

/-- The lazy body match fails on quote-free text. -/
theorem matchBody_eq_none {l : List Char} (h : '"' ∉ l) :
    matchBody l = none := by
  induction l with
  | nil => rfl
  | cons c rest ih =>
    have hrest : '"' ∉ rest := fun hm => h (List.mem_cons_of_mem _ hm)
    simp only [matchBody]
    by_cases hcn : c = '\n'
    · rw [if_pos hcn]
    · rw [if_neg hcn]
      have hh : ¬ rest.head? = some '"' := by
        cases rest with
        | nil => simp
        | cons d t =>
          simp only [List.head?]
          intro hc
          exact hrest (by simp [Option.some.inj hc])
      rw [if_neg hh, ih hrest]

/-- The regex search fails on quote-free text. -/
theorem reSearchQuoted_eq_none {l : List Char} (h : '"' ∉ l) :
    reSearchQuoted l = none := by
  induction l with
  | nil => rfl
  | cons c rest ih =>
    have hc : c ≠ '"' := fun he => h (by simp [he])
    simp only [reSearchQuoted]
    rw [if_neg hc]
    exact ih (fun hm => h (List.mem_cons_of_mem _ hm))

/-- When the first quoted token has nonempty newline-free content, the
regex search finds exactly that token. -/
theorem reSearchQuoted_of_content {s content : List Char}
    (h : firstQuotedContent s = some content) (hne : content ≠ [])
    (hn : '\n' ∉ content) :
    reSearchQuoted s = some ('"' :: (content ++ ['"'])) := by
  induction s with
  | nil => simp [firstQuotedContent] at h
  | cons c rest ih =>
    simp only [firstQuotedContent] at h
    simp only [reSearchQuoted]
    by_cases hc : c = '"'
    · rw [if_pos hc] at h
      rw [if_pos hc]
      obtain ⟨hq, suffix, hval⟩ := upToQuote_eq_some h
      subst hval
      rw [matchBody_append hne hq hn]
    · rw [if_neg hc] at h
      rw [if_neg hc]
      exact ih h

/-- When a line has no first quoted token, the regex search fails. -/
theorem reSearchQuoted_of_no_content {s : List Char}
    (h : firstQuotedContent s = none) : reSearchQuoted s = none := by
  induction s with
  | nil => rfl
  | cons c rest ih =>
    simp only [firstQuotedContent] at h
    simp only [reSearchQuoted]
    by_cases hc : c = '"'
    · rw [if_pos hc] at h
      rw [if_pos hc]
      have hq := upToQuote_eq_none h
      rw [matchBody_eq_none hq]
      exact reSearchQuoted_eq_none hq
    · rw [if_neg hc] at h
      rw [if_neg hc]
      exact ih h

/-- Quote stripping is the identity on quote-free text. -/
theorem stripQuotes_of_no_quote {l : List Char} (h : '"' ∉ l) :
    stripQuotes l = l := by
  unfold stripQuotes
  apply List.filter_eq_self.mpr
  intro a ha
  have hne : a ≠ '"' := fun he => h (he ▸ ha)
  simpa using hne

/-- On a benign line the source extraction agrees with the
first-quoted-token reading of the spec. -/
theorem extract_eq_content {line : String} (h : goodLine line = true) :
    (reSearchQuoted line.data).map (fun m => String.mk (stripQuotes m)) =
      (firstQuotedContent line.data).map (fun cs => String.mk cs) := by
  unfold goodLine at h
  cases hf : firstQuotedContent line.data with
  | none => rw [reSearchQuoted_of_no_content hf]; rfl
  | some content =>
    rw [hf] at h
    simp only [Bool.and_eq_true, Bool.not_eq_true'] at h
    have hne : content ≠ [] := by
      intro he; subst he; simp at h
    have hn : '\n' ∉ content := by
      intro hm
      have hc : content.contains '\n' = true := List.elem_eq_true_of_mem hm
      rw [h.2] at hc
      exact Bool.false_ne_true hc
    rw [reSearchQuoted_of_content hf hne hn]
    have hq := firstQuotedContent_no_quote hf
    simp only [Option.map_some']
    congr 1
    have h1 : stripQuotes ('"' :: (content ++ ['"'])) = stripQuotes content := by
      unfold stripQuotes
      simp [List.filter_cons, List.filter_append]
    rw [h1, stripQuotes_of_no_quote hq]

/-- A successful association-list lookup produces a pair of the
list. -/
theorem mem_of_lookup {l : List (String × List String)} {k : String}
    {vs : List String} (h : l.lookup k = some vs) : (k, vs) ∈ l := by
  induction l with
  | nil => simp [List.lookup] at h
  | cons p rest ih =>
    obtain ⟨a, b⟩ := p
    rw [List.lookup] at h
    by_cases hk : (k == a) = true
    · rw [hk] at h
      obtain rfl : b = vs := Option.some.inj h
      obtain rfl : k = a := eq_of_beq hk
      exact List.mem_cons_self _ _
    · rw [Bool.not_eq_true] at hk
      rw [hk] at h
      exact List.mem_cons_of_mem _ (ih h)

/-- On a cleanly resolving response, one loop iteration of
`get_status` produces exactly the record the spec describes. -/
theorem get_status_one_eq_spec (api : String → Nat × Json)
    (formula_type macos_version name : String)
    (h : resolvesCleanly (api name) formula_type = true) :
    get_status_one api formula_type macos_version name =
      Except.ok (spec_record (api name) formula_type macos_version name) := by
  unfold get_status_one spec_record
  unfold resolvesCleanly at h
  by_cases h200 : (api name).1 = 200
  · rw [if_pos h200] at h
    rw [if_pos h200, if_pos h200]
    cases hres : get_supported_versions (api name).2 formula_type with
    | ok versions =>
      rw [hres] at h
      simp only [hres]
      by_cases hm : macos_version ∈ versions
      · rw [if_pos hm, if_pos hm]
      · rw [if_neg hm, if_neg hm]
    | error e =>
      cases e with
      | keyError => simp only [hres]
      | indexError => rw [hres] at h; simp at h
      | typeError => rw [hres] at h; simp at h
      | attributeError => rw [hres] at h; simp at h
  · rw [if_neg h200] at h
    rw [if_neg h200, if_neg h200]

/-- Claim C1 (amended): for every list of package names, a kind of
brew or cask, a target OS version, and an API in which every queried
200 body resolves or fails resolution only by a missing key, the
evaluator returns exactly one status record per input name, in input
order, with the status of each record as the spec describes: 200 and
member gives Supported, 200 and non-member gives Unsupported, 200 with
failed resolution gives No info, and non-200 gives Unknown. -/
theorem C1_evaluator_records (api : String → Nat × Json)
    (formulae : List String) (formula_type macos_version : String)
    (_hk : formula_type = "brew" ∨ formula_type = "cask")
    (hg : ∀ name ∈ formulae, resolvesCleanly (api name) formula_type = true) :
    get_status api formulae formula_type macos_version =
      Except.ok (formulae.map fun name =>
        spec_record (api name) formula_type macos_version name) := by
  induction formulae with
  | nil => rfl
  | cons name rest ih =>
    have h1 := get_status_one_eq_spec api formula_type macos_version name
      (hg name (List.mem_cons_self _ _))
    have h2 := ih (fun n hn => hg n (List.mem_cons_of_mem _ hn))
    simp only [get_status, List.map_cons, h1, h2]
    rfl

/-- Claim C1 witness: a concrete three-package run covering the
Supported, Unknown and No info cases through the amended theorem. -/
theorem C1_witness :
    (∀ name ∈ ["wget", "nope", "noinfo"], resolvesCleanly (apiMixed name) "brew" = true) ∧
    get_status apiMixed ["wget", "nope", "noinfo"] "brew" "big_sur" =
      Except.ok [⟨"Bottle", "wget", "Supported"⟩, ⟨"Bottle", "nope", "Unknown"⟩,
        ⟨"Bottle", "noinfo", "No info"⟩] := by
  refine ⟨by decide, ?_⟩
  rw [C1_evaluator_records apiMixed ["wget", "nope", "noinfo"] "brew" "big_sur"
    (Or.inl rfl) (by decide)]
  rfl

/-- Claim C1 counterexample: with a 200 cask response whose `">="`
constraint list is empty, the evaluator does not return a record for
the input name at all; the `IndexError` escapes the `except KeyError`
clause and aborts the call. -/
theorem C1_counterexample :
    get_status apiEmptyConstraint ["badcask"] "cask" "big_sur" =
      Except.error PyErr.indexError ∧
    get_status apiEmptyConstraint ["badcask"] "cask" "big_sur" ≠
      Except.ok [⟨"Application", "badcask", "No info"⟩] := by
  exact ⟨rfl, by decide⟩

/-- Claim C2 (amended): for every manifest and supported kind, the
reader returns exactly the extracts of the lines that start with the
kind keyword, in order; on a line whose first double-quoted token has
nonempty newline-free content the extract is exactly that content, and
a keyword line with no double-quoted token contributes nothing. -/
theorem C2_reader_names (lines : List String) (formula_type : String)
    (hk : formula_type = "brew" ∨ formula_type = "cask")
    (hg : lines.all goodLine = true) :
    get_formulae lines formula_type =
      Except.ok (lines.filterMap fun line =>
        if py_startswith line.data formula_type.data then
          (firstQuotedContent line.data).map (fun cs => String.mk cs)
        else none) := by
  have hmem : (metadata.map Prod.fst).contains formula_type = true := by
    rcases hk with rfl | rfl <;> decide
  unfold get_formulae
  rw [if_pos hmem]
  congr 1
  apply List.filterMap_congr
  intro line hline
  by_cases hs : py_startswith line.data formula_type.data = true
  · rw [if_pos hs, if_pos hs]
    exact extract_eq_content (List.all_eq_true.mp hg line hline)
  · rw [if_neg hs, if_neg hs]

/-- Claim C2 witness: the reader on a concrete four-line manifest,
through the amended theorem. -/
theorem C2_witness :
    (sampleLines.all goodLine = true) ∧
    get_formulae sampleLines "brew" =
      Except.ok (sampleLines.filterMap fun line =>
        if py_startswith line.data ("brew" : String).data then
          (firstQuotedContent line.data).map (fun cs => String.mk cs)
        else none) :=
  ⟨by decide, C2_reader_names sampleLines "brew" (Or.inl rfl) (by decide)⟩

/-- Claim C2 counterexample: on the line `brew "" b "x"`, whose first
double-quoted token is empty, the reader returns the name `" b "`
(the lazy match `"" b "` with every quote character removed), not the
content of the first double-quoted token, which is the empty string. -/
theorem C2_counterexample :
    get_formulae ["brew \"\" b \"x\""] "brew" = Except.ok [" b "] ∧
    (firstQuotedContent ("brew \"\" b \"x\"" : String).data).map
      (fun cs => String.mk cs) = some "" ∧
    (" b " : String) ≠ "" := by
  refine ⟨rfl, by decide, by decide⟩

/-- Claim C3: on a brew response containing a stable-bottle file
listing, version resolution returns exactly the keys of that listing,
in order, no more and no fewer. -/
theorem C3_brew_bottle_keys (data bottle stable : Json)
    (files : List (String × Json))
    (h1 : data.getStr "bottle" = Except.ok bottle)
    (h2 : bottle.getStr "stable" = Except.ok stable)
    (h3 : stable.getStr "files" = Except.ok (Json.obj files)) :
    get_supported_versions data "brew" = Except.ok (files.map Prod.fst) := by
  unfold get_supported_versions
  rw [if_pos rfl]
  simp [h1, h2, h3, Json.keys, Bind.bind, Except.bind]

/-- Claim C3 witness: a concrete brew body with bottle files for
big_sur and catalina. -/
theorem C3_witness :
    get_supported_versions brewFilesBody "brew" =
      Except.ok ["big_sur", "catalina"] :=
  C3_brew_bottle_keys brewFilesBody _ _ _ rfl rfl rfl

/-- Claim C4: for a cask response with a declared minimum-version
constraint, when the formatted constraint is a `support_matrix` key,
resolution returns exactly the mapped value; when it is not a key,
resolution raises `KeyError` and the evaluator records status No info
for the package. -/
theorem C4_cask_constraint (data dep mac ge v : Json)
    (h1 : data.getStr "depends_on" = Except.ok dep)
    (h2 : dep.getStr "macos" = Except.ok mac)
    (h3 : mac.getStr ">=" = Except.ok ge)
    (h4 : ge.getIdx 0 = Except.ok v) :
    (∀ versions, support_matrix.lookup (">=" ++ pyStr v) = some versions →
      get_supported_versions data "cask" = Except.ok versions) ∧
    (support_matrix.lookup (">=" ++ pyStr v) = none →
      get_supported_versions data "cask" = Except.error PyErr.keyError ∧
      ∀ (api : String → Nat × Json) (name target : String),
        api name = (200, data) →
        get_status_one api "cask" target name =
          Except.ok ⟨"Application", name, "No info"⟩) := by
  have hbase : get_supported_versions data "cask" =
      (match support_matrix.lookup (">=" ++ pyStr v) with
       | some versions => Except.ok versions
       | none => Except.error PyErr.keyError) := by
    unfold get_supported_versions
    rw [if_neg (by decide), if_pos rfl]
    simp [h1, h2, h3, h4, Bind.bind, Except.bind]
  refine ⟨fun versions hv => ?_, fun hnone => ⟨?_, ?_⟩⟩
  · rw [hbase, hv]
  · rw [hbase, hnone]
  · intro api name target hapi
    unfold get_status_one
    rw [hapi]
    rw [if_pos rfl]
    rw [show get_supported_versions (200, data).2 "cask" =
      get_supported_versions data "cask" from rfl, hbase, hnone]
    rfl

/-- Claim C4 witness: a known constraint resolves to the matrix value
and an unknown constraint degrades the record to No info, both through
the main theorem. -/
theorem C4_witness :
    get_supported_versions caskMin1015Body "cask" =
      Except.ok ["arm64big_sur", "big_sur", "catalina"] ∧
    get_status_one apiCask109 "cask" "big_sur" "oldapp" =
      Except.ok ⟨"Application", "oldapp", "No info"⟩ :=
  ⟨(C4_cask_constraint caskMin1015Body _ _ _ _ rfl rfl rfl rfl).1 _ rfl,
   ((C4_cask_constraint caskMin109Body _ _ _ _ rfl rfl rfl rfl).2 rfl).2
     apiCask109 "oldapp" "big_sur" rfl⟩

/-- Claim C5, evaluated at the failing inputs: a 200 cask body with an
empty `">="` list raises `IndexError` and a 200 brew body whose
`bottle` field is a string raises `TypeError`; neither is caught by
the `except KeyError` clause, so the run aborts instead of producing a
record and continuing. -/
theorem C5_uncaught_exceptions :
    get_status apiEmptyConstraint ["firefox", "zoom"] "cask" "catalina" =
      Except.error PyErr.indexError ∧
    get_status_one apiStringBottle "brew" "catalina" "wget" =
      Except.error PyErr.typeError :=
  ⟨rfl, rfl⟩

/-- Claim C6, evaluated at the failing entry: `sierra` (macOS 10.12)
satisfies the constraint `>=10.11`, so the claimed meaning of
`support_matrix` puts it in the `>=10.11` row; the source row for
`>=10.11` omits it while the row for `>=10.12` has it. -/
theorem C6_matrix_not_monotone :
    support_matrix.lookup ">=10.12" =
      some ["arm64big_sur", "big_sur", "catalina", "mojave", "high_sierra",
        "sierra"] ∧
    support_matrix.lookup ">=10.11" =
      some ["arm64big_sur", "big_sur", "catalina", "mojave", "high_sierra",
        "el_capitan"] ∧
    "sierra" ∈ ["arm64big_sur", "big_sur", "catalina", "mojave", "high_sierra",
      "sierra"] ∧
    "sierra" ∉ ["arm64big_sur", "big_sur", "catalina", "mojave", "high_sierra",
      "el_capitan"] := by
  refine ⟨rfl, rfl, by decide, by decide⟩

/-- Claim C7: the CLI choice `arm64_big_sur` (with underscore) is in
`macos_versions` but in no value list of `support_matrix` (which spell
it `arm64big_sur`), so a cask evaluation with that target whose
constraint is found in the matrix is never Supported: it is always
Unsupported. -/
theorem C7_arm64_never_supported :
    "arm64_big_sur" ∈ macos_versions ∧
    (∀ p ∈ support_matrix, "arm64_big_sur" ∉ p.2) ∧
    (∀ (api : String → Nat × Json) (name : String) (versions : List String),
      (api name).1 = 200 →
      get_supported_versions (api name).2 "cask" = Except.ok versions →
      get_status_one api "cask" "arm64_big_sur" name =
        Except.ok ⟨"Application", name, "Unsupported"⟩) := by
  refine ⟨by decide, by decide, ?_⟩
  intro api name versions h200 hres
  have hvs : ∃ k, support_matrix.lookup k = some versions := by
    unfold get_supported_versions at hres
    rw [if_neg (by decide), if_pos rfl] at hres
    cases hd : (api name).2.getStr "depends_on" with
    | error e => rw [hd] at hres; simp [Bind.bind, Except.bind] at hres
    | ok dep =>
      rw [hd] at hres
      simp only [Bind.bind, Except.bind] at hres
      cases hm : dep.getStr "macos" with
      | error e => rw [hm] at hres; simp at hres
      | ok mac =>
        rw [hm] at hres
        simp only at hres
        cases hge : mac.getStr ">=" with
        | error e => rw [hge] at hres; simp at hres
        | ok ge =>
          rw [hge] at hres
          simp only at hres
          cases hv : ge.getIdx 0 with
          | error e => rw [hv] at hres; simp at hres
          | ok v =>
            rw [hv] at hres
            simp only at hres
            cases hl : support_matrix.lookup (">=" ++ pyStr v) with
            | some vs =>
              rw [hl] at hres
              obtain rfl : vs = versions := Except.ok.inj hres
              exact ⟨_, hl⟩
            | none => rw [hl] at hres; simp at hres
  obtain ⟨k, hlk⟩ := hvs
  have harm : "arm64_big_sur" ∉ versions :=
    (show ∀ p ∈ support_matrix, "arm64_big_sur" ∉ p.2 from by decide)
      (k, versions) (mem_of_lookup hlk)
  unfold get_status_one
  rw [if_pos h200]
  simp only [hres]
  rw [if_neg harm]
  rfl

/-- Claim C7 witness: a concrete cask with constraint `>=10.14` is
Unsupported for target `arm64_big_sur`, through the main theorem. -/
theorem C7_witness :
    get_status_one apiCask1014 "cask" "arm64_big_sur" "zoom" =
      Except.ok ⟨"Application", "zoom", "Unsupported"⟩ :=
  C7_arm64_never_supported.2.2 apiCask1014 "zoom"
    ["arm64big_sur", "big_sur", "catalina", "mojave"] rfl rfl

/-- Claim C8: evaluation is deterministic; with the same names, kind,
target version and name-to-response mapping, two runs of the evaluator
are the same sequence of records (the embedding is a pure function of
those inputs). -/
theorem C8_deterministic (api : String → Nat × Json) (formulae : List String)
    (formula_type macos_version : String) :
    get_status api formulae formula_type macos_version =
      get_status api formulae formula_type macos_version := rfl

/-- Claim C9: a kind other than brew or cask makes the manifest reader
exit with code 1, with a result independent of the manifest content
(the file is never read); for the two supported kinds the reader never
takes the fatal exit. -/
theorem C9_unsupported_kind_exit (formula_type : String) :
    (formula_type ≠ "brew" ∧ formula_type ≠ "cask" →
      ∀ lines lines2 : List String,
        get_formulae lines formula_type = Except.error 1 ∧
        get_formulae lines formula_type = get_formulae lines2 formula_type) ∧
    (formula_type = "brew" ∨ formula_type = "cask" →
      ∀ lines : List String,
        ∃ names, get_formulae lines formula_type = Except.ok names) := by
  constructor
  · intro ht lines lines2
    have h1 : (formula_type == "brew") = false := beq_eq_false_iff_ne.mpr ht.1
    have h2 : (formula_type == "cask") = false := beq_eq_false_iff_ne.mpr ht.2
    have hc : (metadata.map Prod.fst).contains formula_type = false := by
      simp [metadata, List.contains, List.elem, h1, h2]
    have herr : ∀ ls : List String, get_formulae ls formula_type = Except.error 1 := by
      intro ls
      unfold get_formulae
      rw [if_neg (by rw [hc]; exact Bool.false_ne_true)]
    exact ⟨herr lines, (herr lines).trans (herr lines2).symm⟩
  · intro hk lines
    have hmem : (metadata.map Prod.fst).contains formula_type = true := by
      rcases hk with rfl | rfl <;> decide
    unfold get_formulae
    rw [if_pos hmem]
    exact ⟨_, rfl⟩

/-- Claim C9 witness: the kind `tap` exits with code 1 on any manifest
and the kind `cask` reads the sample manifest, both through the main
theorem. -/
theorem C9_witness :
    get_formulae sampleLines "tap" = Except.error 1 ∧
    ∃ names, get_formulae sampleLines "cask" = Except.ok names :=
  ⟨((C9_unsupported_kind_exit "tap").1 (by decide) sampleLines []).1,
   (C9_unsupported_kind_exit "cask").2 (Or.inr rfl) sampleLines⟩

/-- Claim C10: manifest-line recognition is a raw string-prefix test.
The line `cask_args "appdir"`, whose first word strictly extends the
keyword `cask`, passes the prefix test for kind cask, and the reader
returns its quoted token `appdir` as if it named a package. -/
theorem C10_raw_prefix_test :
    py_startswith ("cask_args \"appdir\"" : String).data
      ("cask" : String).data = true ∧
    ("cask_args" : String) ≠ "cask" ∧
    get_formulae ["cask_args \"appdir\""] "cask" = Except.ok ["appdir"] := by
  refine ⟨by decide, by decide, rfl⟩

end BrewCompat
